import Mathlib

/-
Shallow embedding of the behavior and interaction engine of ArkPets-Web
(src/js/character.ts): the capability-aware Markov animation model, the
per-frame physics integration, the drag controller and the pixel hit test.
Number-valued program state is embedded over the rationals; fallible
JavaScript code (thrown exceptions, undefined element access) is embedded
with Except/Option.
-/

set_option autoImplicit false

namespace ArkPets

/-! ## Constants (character.ts, top of file) -/

def MOVING_SPEED : ℚ := 30

def GRAVITY : ℚ := 1000

def DRAG : ℚ := 0.98

def MAX_VELOCITY : ℚ := 1000

def MIN_VELOCITY : ℚ := 5

def BOUNCE_DAMPING : ℚ := 0.7

/-! ## Animation name lists and Markov transition tables -/

def ANIMATION_NAMES : List String := ["Relax", "Interact", "Move", "Sit", "Sleep", "Special"]

def ANIMATION_MARKOV : List (List ℚ) := [
  [0.5, 0.0, 0.2, 0.1, 0.1, 0.1],
  [1.0, 0.0, 0.0, 0.0, 0.0, 0.0],
  [0.2, 0.0, 0.6, 0.0, 0.0, 0.2],
  [0.3, 0.0, 0.0, 0.5, 0.0, 0.2],
  [0.1, 0.0, 0.0, 0.0, 0.9, 0.0],
  [0.4, 0.0, 0.4, 0.1, 0.1, 0.0]]

def ANIMATION_NAMES_VEHICLE : List String := ["Relax", "Interact", "Move", "Special"]

def ANIMATION_MARKOV_VEHICLE : List (List ℚ) := [
  [0.4, 0.0, 0.5, 0.1],
  [1.0, 0.0, 0.0, 0.0],
  [0.3, 0.0, 0.6, 0.1],
  [0.5, 0.0, 0.5, 0.0]]

def ANIMATION_NAMES_NO_SPECIAL : List String := ["Relax", "Interact", "Move", "Sit", "Sleep"]

def ANIMATION_MARKOV_NO_SPECIAL : List (List ℚ) := [
  [0.5, 0.0, 0.25, 0.15, 0.1],
  [1.0, 0.0, 0.0, 0.0, 0.0],
  [0.2, 0.0, 0.8, 0.0, 0.0],
  [0.3, 0.0, 0.0, 0.7, 0.0],
  [0.1, 0.0, 0.0, 0.0, 0.9]]

def ANIMATION_NAMES_VEHICLE_NO_SPECIAL : List String := ["Relax", "Interact", "Move"]

def ANIMATION_MARKOV_VEHICLE_NO_SPECIAL : List (List ℚ) := [
  [0.5, 0.0, 0.5],
  [1.0, 0.0, 0.0],
  [0.3, 0.0, 0.7]]

/-! ## Data model -/

inductive Direction where
  | left
  | right
deriving DecidableEq, Repr

/-- The Action record of character.ts: the currently playing animation name,
facing direction and local elapsed time (field `timestamp`). -/
structure Action where
  animation : String
  direction : Direction
  timestamp : ℚ
deriving DecidableEq, Repr

/-! ## JavaScript-faithful list access

JavaScript `array[i]` yields `undefined` when `i` is out of range (in
particular for `i = -1`, the value `indexOf` returns on a miss); the
embedding makes that `none`. -/

def jsElem? {α : Type} (l : List α) (i : ℤ) : Option α :=
  if 0 ≤ i then l[i.toNat]? else none

/-- JavaScript `Array.prototype.indexOf`: the index of the first occurrence,
or `-1` when the element is absent. -/
def jsIndexOf (l : List String) (s : String) : ℤ :=
  match l.findIdx? (fun x => x = s) with
  | some n => Int.ofNat n
  | none => -1

/-! ## Behavior Transition Model (randomPick, nextAction) -/

/-- Loop body of `randomPick` in character.ts: walk the row accumulating
probabilities; return the first index whose cumulative sum is at least the
draw; throw (here: `Except.error`) when the walk falls off the end. -/
def randomPickAux (probabilities : List ℚ) (random cumulativeProb : ℚ) (i : ℕ) :
    Except String ℕ :=
  match probabilities with
  | [] => Except.error "Invalid probabilities"
  | p :: rest =>
    let c := cumulativeProb + p
    if random ≤ c then Except.ok i else randomPickAux rest random c (i + 1)

/-- `randomPick(probabilities)` of character.ts, with the `Math.random()`
draw made an explicit argument. -/
def randomPick (probabilities : List ℚ) (random : ℚ) : Except String ℕ :=
  randomPickAux probabilities random 0 0

/-- `turnDirection` of character.ts. -/
def turnDirection : Direction → Direction
  | .left => .right
  | .right => .left

/-- `nextAction(current)` of character.ts, with the active name list and
transition table (the result of `getAnimationNames`/`getAnimationMarkov`)
and the two `Math.random()` draws (column sampling, 0.4 facing flip) made
explicit arguments.  A missing current animation gives row index `-1`,
whose row lookup is `undefined`; `randomPick(undefined)` then throws a
TypeError, embedded as `Except.error`. -/
def nextAction (names : List String) (markov : List (List ℚ)) (current : Action)
    (draw flipDraw : ℚ) : Except String Action :=
  let animeIndex := jsIndexOf names current.animation
  match jsElem? markov animeIndex with
  | none => Except.error "TypeError: undefined is not an array"
  | some nextIndexProb =>
    match randomPick nextIndexProb draw with
    | Except.error e => Except.error e
    | Except.ok nextAnimIndex =>
      match jsElem? names (Int.ofNat nextAnimIndex) with
      | none => Except.error "TypeError: undefined animation name"
      | some nextAnim =>
        let nextDirection :=
          if current.animation = "Relax" ∧ nextAnim = "Move" then
            if flipDraw < 0.4 then turnDirection current.direction
            else current.direction
          else current.direction
        Except.ok { animation := nextAnim, direction := nextDirection, timestamp := 0 }

/-! ## Animation Capability Resolver (loadCharacter, getAnimationNames,
getAnimationMarkov) -/

/-- The capability update in `loadCharacter` of character.ts: `isVehicle` is
set to true when the skeleton lacks "Sit" or lacks "Sleep"; the code never
resets it to false, so the previous value persists otherwise. -/
def resolveIsVehicle (prev hasSit hasSleep : Bool) : Bool :=
  if !hasSit || !hasSleep then true else prev

/-- The `hasSpecialAnimation` update in `loadCharacter` of character.ts. -/
def resolveHasSpecial (hasSpecial : Bool) : Bool := hasSpecial

/-- `getAnimationNames()` of character.ts: pick the active name list from
the vehicle/special capability flags. -/
def getAnimationNames (isVehicle hasSpecialAnimation : Bool) : List String :=
  if isVehicle then
    if hasSpecialAnimation then ANIMATION_NAMES_VEHICLE
    else ANIMATION_NAMES_VEHICLE_NO_SPECIAL
  else
    if hasSpecialAnimation then ANIMATION_NAMES
    else ANIMATION_NAMES_NO_SPECIAL

/-- `getAnimationMarkov()` of character.ts: pick the active transition table
from the vehicle/special capability flags. -/
def getAnimationMarkov (isVehicle hasSpecialAnimation : Bool) : List (List ℚ) :=
  if isVehicle then
    if hasSpecialAnimation then ANIMATION_MARKOV_VEHICLE
    else ANIMATION_MARKOV_VEHICLE_NO_SPECIAL
  else
    if hasSpecialAnimation then ANIMATION_MARKOV
    else ANIMATION_MARKOV_NO_SPECIAL

/-- The current-action reset in `load()` of character.ts: when the saved or
current animation is not in the active name list, reset the animation to
"Relax" and the elapsed time to 0 (the facing direction is untouched). -/
def loadResetAction (names : List String) (current : Action) : Action :=
  if jsIndexOf names current.animation = -1 then
    { animation := "Relax", direction := current.direction, timestamp := 0 }
  else current

/-! ## Physics Integrator (the not-dragging block of render()) -/

/-- Physics state: position and velocity, both in surface pixels, with the
screen y axis growing downward (the floor is at `maxY`). -/
structure PhysState where
  px : ℚ
  py : ℚ
  vx : ℚ
  vy : ℚ
deriving DecidableEq, Repr

/-- The x-velocity pipeline of one physics step in `render()`: air drag,
snap-to-zero below `MIN_VELOCITY`, clamp to `MAX_VELOCITY`. -/
def vxUpdate (vx : ℚ) : ℚ :=
  let v1 := vx * DRAG
  let v2 := if |v1| < MIN_VELOCITY then 0 else v1
  max (-MAX_VELOCITY) (min MAX_VELOCITY v2)

/-- The y-velocity pipeline of one physics step in `render()`: gravity, air
drag, snap-to-zero below `MIN_VELOCITY`, clamp to `MAX_VELOCITY`. -/
def vyUpdate (delta vy : ℚ) : ℚ :=
  let v1 := (vy + GRAVITY * delta) * DRAG
  let v2 := if |v1| < MIN_VELOCITY then 0 else v1
  max (-MAX_VELOCITY) (min MAX_VELOCITY v2)

/-- One physics integration step: the `if (!this.isDragging)` block of
`render()` in character.ts.  `maxX`/`maxY` stand for
`window.innerWidth - canvas.offsetWidth` and
`window.innerHeight - canvas.offsetHeight`.  Horizontal wall contact
reflects the velocity damped by `BOUNCE_DAMPING`; vertical floor/ceiling
contact clamps the position and zeroes the velocity. -/
def physicsStep (s : PhysState) (delta maxX maxY : ℚ) : PhysState :=
  let vx1 := vxUpdate s.vx
  let vy1 := vyUpdate delta s.vy
  let px1 := s.px + vx1 * delta
  let py1 := s.py + vy1 * delta
  { px := if px1 < 0 then 0 else if px1 > maxX then maxX else px1,
    vx := if px1 < 0 then -vx1 * BOUNCE_DAMPING
          else if px1 > maxX then -vx1 * BOUNCE_DAMPING else vx1,
    py := if py1 < 0 then 0 else if py1 > maxY then maxY else py1,
    vy := if py1 < 0 then 0 else if py1 > maxY then 0 else vy1 }

/-! ## Frame Orchestrator state update (render()) -/

/-- The per-frame mutable state touched by the state-update half of
`render()`: physics state, drag flag and the current action. -/
structure CharState where
  phys : PhysState
  isDragging : Bool
  action : Action
deriving DecidableEq, Repr

/-- The `if (this.currentAction.animation === "Move")` locomotion block of
`render()` in character.ts: advance the position by `MOVING_SPEED * delta`
in the facing direction, clamping at either horizontal edge and flipping
the direction there.  Note this block is not gated on `isDragging`. -/
def moveStep (p : PhysState) (action : Action) (delta maxX : ℚ) :
    PhysState × Action :=
  if action.animation = "Move" then
    let movement := MOVING_SPEED * delta
    if action.direction = Direction.left then
      let px1 := max 0 (p.px - movement)
      if px1 ≤ 0 then
        ({ p with px := 0 }, { action with direction := Direction.right })
      else ({ p with px := px1 }, action)
    else
      let px1 := p.px + movement
      if px1 ≥ maxX then
        ({ p with px := maxX }, { action with direction := Direction.left })
      else ({ p with px := px1 }, action)
  else (p, action)

/-- The state-update half of one `render()` frame of character.ts: advance
the action clock by `delta`, run the physics step unless dragging, then run
the "Move" locomotion block. -/
def renderStep (s : CharState) (delta maxX maxY : ℚ) : CharState :=
  let action0 := { s.action with timestamp := s.action.timestamp + delta }
  let phys1 := if s.isDragging then s.phys else physicsStep s.phys delta maxX maxY
  let pa := moveStep phys1 action0 delta maxX
  { phys := pa.1, isDragging := s.isDragging, action := pa.2 }

/-! ## Interaction Controller (handleDrag, handleDragStart, handleCanvasClick) -/

/-- A normalized pointer event: client coordinates and wall-clock
timestamp in milliseconds. -/
structure PointerEvent where
  clientX : ℚ
  clientY : ℚ
  timeStamp : ℚ
deriving DecidableEq, Repr

/-- Drag-controller state of character.ts: the dragging flag, the
pointer-to-position anchor captured on drag start, and the previous drag
event used for velocity estimation. -/
structure DragState where
  isDragging : Bool
  dragStartRelativeX : ℚ
  dragStartRelativeY : ℚ
  lastDragEvent : Option PointerEvent
deriving DecidableEq, Repr

/-- `handleDrag(e)` of character.ts: while dragging, set the position to
`pointer - dragAnchor`, recompute the velocity from the wall-clock gap to
the previous drag event when that gap is positive, and remember the event. -/
def handleDrag (drag : DragState) (p : PhysState) (e : PointerEvent) :
    DragState × PhysState :=
  if drag.isDragging then
    let newX := e.clientX - drag.dragStartRelativeX
    let newY := e.clientY - drag.dragStartRelativeY
    let v : ℚ × ℚ :=
      match drag.lastDragEvent with
      | some last =>
        let dt := (e.timeStamp - last.timeStamp) / 1000
        if dt > 0 then ((newX - p.px) / dt, (newY - p.py) / dt) else (p.vx, p.vy)
      | none => (p.vx, p.vy)
    ({ drag with lastDragEvent := some e },
     { px := newX, py := newY, vx := v.1, vy := v.2 })
  else (drag, p)

/-- `handleCanvasClick()` of character.ts: force the current action to a
one-shot "Interact" with the facing direction unchanged and a fresh clock. -/
def handleCanvasClick (current : Action) : Action :=
  { animation := "Interact", direction := current.direction, timestamp := 0 }

/-! ## Hit Tester (the readPixels block of render()) -/

/-- The pointer-to-render-target x mapping of `render()`:
`(mouseX - canvasRect.x) * pixelDensity`. -/
def hitTestMapX (mouseX rectX density : ℚ) : ℚ := (mouseX - rectX) * density

/-- The pointer-to-render-target y mapping of `render()`:
`canvasHeight - (mouseY - canvasRect.y) * pixelDensity` (vertical flip,
render-target row 0 is the bottom). -/
def hitTestMapY (mouseY rectY density canvasHeight : ℚ) : ℚ :=
  canvasHeight - (mouseY - rectY) * density

/-- The hit-test block of `render()` in character.ts: when the mapped pixel
coordinate is inside the render target, the is-over flag is the
non-transparency of the sampled alpha; out of range it is false. -/
def hitTest (pixelX pixelY width height : ℚ) (alpha : ℕ) : Bool :=
  if 0 ≤ pixelX ∧ pixelX < width ∧ 0 ≤ pixelY ∧ pixelY < height then
    alpha != 0
  else false

/-! ## The free-fall velocity sequence used for the convergence claim -/

/-- Velocity after `n` physics steps of fixed duration `delta`, starting
from rest: the y-velocity pipeline of `physicsStep` iterated from 0. -/
def vySeq (delta : ℚ) : ℕ → ℚ
  | 0 => 0
  | n + 1 => vyUpdate delta (vySeq delta n)

/-! ## Helper lemmas -/

theorem randomPickAux_error_of_sum_lt (row : List ℚ) (draw c : ℚ) (i : ℕ)
    (hnn : ∀ p ∈ row, 0 ≤ p) (hlt : c + row.sum < draw) :
    randomPickAux row draw c i = Except.error "Invalid probabilities" := by
  induction row generalizing c i with
  | nil => simp [randomPickAux]
  | cons p rest ih =>
    have hrest : 0 ≤ rest.sum :=
      List.sum_nonneg (fun q hq => hnn q (List.mem_cons_of_mem _ hq))
    have hsum : c + p + rest.sum < draw := by
      simp only [List.sum_cons] at hlt; linarith
    simp only [randomPickAux]
    rw [if_neg (by linarith)]
    exact ih (c + p) (i + 1) (fun q hq => hnn q (List.mem_cons_of_mem _ hq)) hsum

theorem randomPickAux_ok_ge (l : List ℚ) (r c : ℚ) (i j : ℕ)
    (h : randomPickAux l r c i = Except.ok j) : i ≤ j := by
  induction l generalizing c i with
  | nil => simp [randomPickAux] at h
  | cons p rest ih =>
    rw [randomPickAux] at h
    by_cases hle : r ≤ c + p
    · rw [if_pos hle] at h
      exact (Except.ok.inj h) ▸ le_rfl
    · rw [if_neg hle] at h
      exact le_trans (Nat.le_succ i) (ih (c + p) (i + 1) h)

theorem randomPickAux_ok_lt (l : List ℚ) (r c : ℚ) (i j : ℕ)
    (h : randomPickAux l r c i = Except.ok j) : j < i + l.length := by
  induction l generalizing c i with
  | nil => simp [randomPickAux] at h
  | cons p rest ih =>
    rw [randomPickAux] at h
    by_cases hle : r ≤ c + p
    · rw [if_pos hle] at h
      have := Except.ok.inj h
      subst this
      simp
    · rw [if_neg hle] at h
      have := ih (c + p) (i + 1) h
      simp only [List.length_cons]
      omega

theorem randomPick_ne_one (p0 : ℚ) (rest : List ℚ) (r : ℚ) :
    randomPick (p0 :: 0 :: rest) r ≠ Except.ok 1 := by
  intro h
  rw [randomPick, randomPickAux] at h
  by_cases h0 : r ≤ 0 + p0
  · rw [if_pos h0] at h
    exact absurd (Except.ok.inj h) (by norm_num)
  · rw [if_neg h0] at h
    rw [randomPickAux] at h
    have h1 : ¬ r ≤ 0 + p0 + 0 := by
      intro hc
      exact h0 (by linarith)
    rw [if_neg h1] at h
    have := randomPickAux_ok_ge rest r (0 + p0 + 0) 2 1 h
    omega

theorem jsElem?_mem {α : Type} (l : List α) (i : ℤ) (x : α)
    (h : jsElem? l i = some x) : x ∈ l := by
  rw [jsElem?] at h
  by_cases h0 : 0 ≤ i
  · rw [if_pos h0] at h
    exact List.getElem?_mem h
  · rw [if_neg h0] at h
    cases h

theorem jsIndexOf_eq_neg_one_of_not_mem (l : List String) (s : String) (h : s ∉ l) :
    jsIndexOf l s = -1 := by
  rw [jsIndexOf]
  have hnone : l.findIdx? (fun x => x = s) = none := by
    simp only [List.findIdx?_eq_none_iff, decide_eq_false_iff_not]
    intro x hx hxs
    exact h (hxs ▸ hx)
  rw [hnone]

theorem nextAction_ok_decomp (names : List String) (markov : List (List ℚ))
    (current : Action) (draw flipDraw : ℚ) (a : Action)
    (h : nextAction names markov current draw flipDraw = Except.ok a) :
    ∃ row j, jsElem? markov (jsIndexOf names current.animation) = some row
      ∧ randomPick row draw = Except.ok j
      ∧ jsElem? names (Int.ofNat j) = some a.animation := by
  rw [nextAction] at h
  cases hrow : jsElem? markov (jsIndexOf names current.animation) with
  | none => rw [hrow] at h; cases h
  | some row =>
    rw [hrow] at h
    dsimp only at h
    cases hpick : randomPick row draw with
    | error e => rw [hpick] at h; cases h
    | ok j =>
      rw [hpick] at h
      dsimp only at h
      cases hname : jsElem? names (Int.ofNat j) with
      | none => rw [hname] at h; cases h
      | some nm =>
        rw [hname] at h
        dsimp only at h
        obtain rfl := (Except.ok.inj h)
        exact ⟨row, j, rfl, hpick, hname⟩

theorem vyUpdate_invariant (delta v : ℚ) (hd : 0 < delta)
    (h0 : 0 ≤ v) (h1 : v ≤ 1000) (h2 : v ≤ 49000 * delta)
    (h3 : v = 0 ∨ 5 ≤ v) :
    v ≤ vyUpdate delta v ∧ 0 ≤ vyUpdate delta v ∧ vyUpdate delta v ≤ 1000
    ∧ vyUpdate delta v ≤ 49000 * delta
    ∧ (vyUpdate delta v = 0 ∨ 5 ≤ vyUpdate delta v) := by
  rw [vyUpdate]
  simp only [GRAVITY, DRAG, MIN_VELOCITY, MAX_VELOCITY]
  have hg0 : 0 ≤ (v + 1000 * delta) * (0.98 : ℚ) := by nlinarith
  have hgv : v ≤ (v + 1000 * delta) * (0.98 : ℚ) := by nlinarith
  have hle49 : (v + 1000 * delta) * (0.98 : ℚ) ≤ 49000 * delta := by nlinarith
  rw [abs_of_nonneg hg0]
  by_cases hlt : (v + 1000 * delta) * (0.98 : ℚ) < 5
  · rw [if_pos hlt]
    have hv0 : v = 0 := by
      rcases h3 with h | h
      · exact h
      · linarith
    subst hv0
    norm_num
    positivity
  · rw [if_neg hlt]
    push_neg at hlt
    have hmin5 : (5 : ℚ) ≤ min 1000 ((v + 1000 * delta) * (0.98 : ℚ)) :=
      le_min (by norm_num) hlt
    rw [max_eq_right (by linarith)]
    refine ⟨le_min h1 hgv, by linarith, min_le_left _ _,
      le_trans (min_le_right _ _) hle49, Or.inr hmin5⟩

theorem vySeq_invariant (delta : ℚ) (hd : 0 < delta) (n : ℕ) :
    0 ≤ vySeq delta n ∧ vySeq delta n ≤ 1000 ∧ vySeq delta n ≤ 49000 * delta
    ∧ (vySeq delta n = 0 ∨ 5 ≤ vySeq delta n)
    ∧ vySeq delta n ≤ vySeq delta (n + 1) := by
  induction n with
  | zero =>
    have h := vyUpdate_invariant delta 0 hd le_rfl (by norm_num) (by positivity)
      (Or.inl rfl)
    exact ⟨le_rfl, by norm_num [vySeq], by simp only [vySeq]; positivity,
      Or.inl rfl, h.1⟩
  | succ n ih =>
    obtain ⟨ih0, ih1, ih2, ih3, _⟩ := ih
    have h := vyUpdate_invariant delta (vySeq delta n) hd ih0 ih1 ih2 ih3
    obtain ⟨_, g0, g1, g2, g3⟩ := h
    have h2 := vyUpdate_invariant delta (vySeq delta (n + 1)) hd g0 g1 g2 g3
    exact ⟨g0, g1, g2, g3, h2.1⟩

theorem vyUpdate_nonneg (delta v : ℚ) (hd : 0 < delta) (h0 : 0 ≤ v) :
    0 ≤ vyUpdate delta v := by
  rw [vyUpdate]
  simp only [GRAVITY, DRAG, MIN_VELOCITY, MAX_VELOCITY]
  have hg0 : 0 ≤ (v + 1000 * delta) * (0.98 : ℚ) := by nlinarith
  rw [abs_of_nonneg hg0]
  by_cases hlt : (v + 1000 * delta) * (0.98 : ℚ) < 5
  · rw [if_pos hlt]; norm_num
  · rw [if_neg hlt]
    push_neg at hlt
    have hmin : (0 : ℚ) ≤ min 1000 ((v + 1000 * delta) * (0.98 : ℚ)) :=
      le_min (by norm_num) hg0
    exact le_trans hmin (le_max_right _ _)

theorem interact_at_one (k : ℕ) (h : ANIMATION_NAMES[k]? = some "Interact") :
    k = 1 := by
  rcases k with _|_|_|_|_|_|k <;>
    first
      | rfl
      | simp [ANIMATION_NAMES] at h

theorem interact_at_one_vehicle (k : ℕ)
    (h : ANIMATION_NAMES_VEHICLE[k]? = some "Interact") : k = 1 := by
  rcases k with _|_|_|_|k <;>
    first
      | rfl
      | simp [ANIMATION_NAMES_VEHICLE] at h

theorem interact_at_one_no_special (k : ℕ)
    (h : ANIMATION_NAMES_NO_SPECIAL[k]? = some "Interact") : k = 1 := by
  rcases k with _|_|_|_|_|k <;>
    first
      | rfl
      | simp [ANIMATION_NAMES_NO_SPECIAL] at h

theorem interact_at_one_vehicle_no_special (k : ℕ)
    (h : ANIMATION_NAMES_VEHICLE_NO_SPECIAL[k]? = some "Interact") : k = 1 := by
  rcases k with _|_|_|k <;>
    first
      | rfl
      | simp [ANIMATION_NAMES_VEHICLE_NO_SPECIAL] at h

/-! ## Claim theorems -/

/-- C1: with the full six-entry repertoire (hasRestState and hasSpecial both
true), current action "Relax" and the uniform draw forced to 0.55, the
next-action sampler returns the action at index 2, "Move": the cumulative
sums of the row [0.5, 0, 0.2, 0.1, 0.1, 0.1] are [0.5, 0.5, 0.7, ...] and
index 2 is the first whose cumulative sum is at least the draw.  The facing
flip draw and the incoming direction and clock are arbitrary. -/
theorem claim1_relax_draw55_yields_move (dir : Direction) (t flipDraw : ℚ) :
    (nextAction ANIMATION_NAMES ANIMATION_MARKOV
      { animation := "Relax", direction := dir, timestamp := t } 0.55 flipDraw).map
      Action.animation = Except.ok "Move" := by
  norm_num [nextAction, jsIndexOf, jsElem?, randomPick, randomPickAux,
    ANIMATION_NAMES, ANIMATION_MARKOV, List.findIdx?_cons, Except.map]
  rfl

/-- C2 counterexample: on a probability row summing to less than the draw,
`randomPick` throws (Except.error in the embedding) instead of returning the
idle index 0, refuting the claim that the sampling call degrades to the
idle/default action. -/
theorem claim2_counterexample_randomPick_throws :
    randomPick [(0.1 : ℚ), 0.1] 0.5 = Except.error "Invalid probabilities"
    ∧ randomPick [(0.1 : ℚ), 0.1] 0.5 ≠ Except.ok 0 := by
  constructor
  · norm_num [randomPick, randomPickAux]
  · norm_num [randomPick, randomPickAux]
    simp

/-- C2 amended: for every probability row with nonnegative entries whose sum
is less than the drawn uniform value, `randomPick` throws an
"Invalid probabilities" error; there is no fallback to the idle action. -/
theorem claim2_amended_randomPick_error_of_low_sum (row : List ℚ) (draw : ℚ)
    (hnn : ∀ p ∈ row, 0 ≤ p) (hlt : row.sum < draw) :
    randomPick row draw = Except.error "Invalid probabilities" :=
  randomPickAux_error_of_sum_lt row draw 0 0 hnn (by linarith)

/-- C2 witness: the amended theorem applied to the concrete row [0.1, 0.2]
and draw 0.5. -/
theorem claim2_witness :
    randomPick [(0.1 : ℚ), 0.2] 0.5 = Except.error "Invalid probabilities" :=
  claim2_amended_randomPick_error_of_low_sum [0.1, 0.2] 0.5 (by norm_num) (by norm_num)

/-- C3: when the current animation is not in the active name list,
`nextAction` fails (row index -1 looks up an undefined row and the
`randomPick` call throws, embedded as Except.error) rather than proceeding
with an out-of-range row, and the load-time recovery resets the action to
"Relax" with elapsed time 0, leaving the direction unchanged. -/
theorem claim3_unknown_animation_fails_and_load_resets (names : List String)
    (markov : List (List ℚ)) (current : Action) (draw flipDraw : ℚ)
    (h : current.animation ∉ names) :
    nextAction names markov current draw flipDraw =
      Except.error "TypeError: undefined is not an array"
    ∧ loadResetAction names current =
      { animation := "Relax", direction := current.direction, timestamp := 0 } := by
  have hidx : jsIndexOf names current.animation = -1 :=
    jsIndexOf_eq_neg_one_of_not_mem _ _ h
  constructor
  · rw [nextAction]
    simp only [hidx]
    rw [jsElem?, if_neg (by norm_num)]
  · rw [loadResetAction, if_pos hidx]

/-- C3 witness: the theorem applied to the current action "Sit" against the
vehicle repertoire, from which "Sit" is absent. -/
theorem claim3_witness :
    nextAction ANIMATION_NAMES_VEHICLE ANIMATION_MARKOV_VEHICLE
      (Action.mk "Sit" Direction.left 3) 0.5 0.5 =
      Except.error "TypeError: undefined is not an array"
    ∧ loadResetAction ANIMATION_NAMES_VEHICLE (Action.mk "Sit" Direction.left 3) =
      { animation := "Relax", direction := Direction.left, timestamp := 0 } :=
  claim3_unknown_animation_fails_and_load_resets ANIMATION_NAMES_VEHICLE
    ANIMATION_MARKOV_VEHICLE (Action.mk "Sit" Direction.left 3) 0.5 0.5 (by decide)

/-- C4 counterexample: a dragged frame is not independent of the current
animation.  With isDragging true and the current animation "Move" (facing
right, position x = 10, delta = 1), one render frame moves the position to
x = 40: the "Move" locomotion block of render() is not gated on the drag
flag, so the claim as stated fails. -/
theorem claim4_counterexample_move_during_drag :
    (renderStep { phys := { px := 10, py := 0, vx := 0, vy := 0 },
                  isDragging := true,
                  action := { animation := "Move", direction := Direction.right,
                              timestamp := 0 } }
      1 100 100).phys.px = 40 ∧ (40 : ℚ) ≠ 10 := by
  constructor
  · norm_num [renderStep, moveStep, MOVING_SPEED]
    rfl
  · norm_num

/-- C4 amended: while isDragging is true the physics integration is skipped
entirely and, provided the current animation is not "Move" (the locomotion
block is not gated on dragging; drag start forces "Relax" but a completion
callback can switch to "Move" mid-drag), a render frame leaves position and
velocity exactly as the last drag event set them; handleDrag sets the
position to pointer minus drag anchor. -/
theorem claim4_amended_drag_skips_physics (s : CharState) (delta maxX maxY : ℚ)
    (hdrag : s.isDragging = true) (hmove : s.action.animation ≠ "Move")
    (drag : DragState) (p : PhysState) (e : PointerEvent)
    (hd2 : drag.isDragging = true) :
    (renderStep s delta maxX maxY).phys = s.phys
    ∧ (handleDrag drag p e).2.px = e.clientX - drag.dragStartRelativeX
    ∧ (handleDrag drag p e).2.py = e.clientY - drag.dragStartRelativeY := by
  refine ⟨?_, ?_, ?_⟩
  · rw [renderStep]
    simp [hdrag, moveStep, hmove]
  · rw [handleDrag, if_pos hd2]
  · rw [handleDrag, if_pos hd2]

/-- C4 witness: the amended theorem at a concrete dragged state playing
"Relax" and a concrete drag event. -/
theorem claim4_witness :
    (renderStep ⟨⟨5, 6, 7, 8⟩, true, Action.mk "Relax" Direction.right 0⟩ 1 100 100).phys
      = ⟨5, 6, 7, 8⟩
    ∧ (handleDrag ⟨true, 2, 3, none⟩ ⟨0, 0, 0, 0⟩ ⟨10, 20, 5⟩).2.px = 10 - 2
    ∧ (handleDrag ⟨true, 2, 3, none⟩ ⟨0, 0, 0, 0⟩ ⟨10, 20, 5⟩).2.py = 20 - 3 :=
  claim4_amended_drag_skips_physics
    ⟨⟨5, 6, 7, 8⟩, true, Action.mk "Relax" Direction.right 0⟩ 1 100 100 rfl
    (by decide) ⟨true, 2, 3, none⟩ ⟨0, 0, 0, 0⟩ ⟨10, 20, 5⟩ rfl

/-- C5: writing v0 for the step velocity (the x velocity after the drag,
snap and clamp pipeline, which is the velocity that drives the position
across the boundary), a single physics step that drives position.x below 0
with v0 < 0 ends with position.x = 0 and velocity.x = -v0 * 0.7
(BOUNCE_DAMPING); symmetrically, a step that drives position.x beyond maxX
with v0 > 0 ends with position.x = maxX and velocity.x = -v0 * 0.7. -/
theorem claim5_boundary_bounce (s : PhysState) (delta maxX maxY : ℚ)
    (hneg : vxUpdate s.vx < 0) (hcross : s.px + vxUpdate s.vx * delta < 0)
    (t : PhysState) (delta2 maxX2 maxY2 : ℚ) (hmax : 0 ≤ maxX2)
    (hpos : 0 < vxUpdate t.vx) (hcross2 : t.px + vxUpdate t.vx * delta2 > maxX2) :
    ((physicsStep s delta maxX maxY).px = 0
      ∧ (physicsStep s delta maxX maxY).vx = -vxUpdate s.vx * BOUNCE_DAMPING)
    ∧ ((physicsStep t delta2 maxX2 maxY2).px = maxX2
      ∧ (physicsStep t delta2 maxX2 maxY2).vx = -vxUpdate t.vx * BOUNCE_DAMPING) := by
  constructor
  · rw [physicsStep]
    simp [hcross]
  · have h1 : ¬(t.px + vxUpdate t.vx * delta2 < 0) := by linarith
    rw [physicsStep]
    simp [h1, hcross2]

/-- C5 witness: a leftward step from x = 0 with incoming velocity -100
(step velocity -98) bounces to velocity 68.6, and a rightward step against
maxX = 50 bounces symmetrically. -/
theorem claim5_witness :
    ((physicsStep ⟨0, 0, -100, 0⟩ 1 100 100).px = 0
      ∧ (physicsStep ⟨0, 0, -100, 0⟩ 1 100 100).vx = -vxUpdate (-100) * BOUNCE_DAMPING)
    ∧ ((physicsStep ⟨0, 0, 100, 0⟩ 1 50 100).px = 50
      ∧ (physicsStep ⟨0, 0, 100, 0⟩ 1 50 100).vx = -vxUpdate 100 * BOUNCE_DAMPING) :=
  claim5_boundary_bounce ⟨0, 0, -100, 0⟩ 1 100 100
    (by norm_num [vxUpdate, DRAG, MIN_VELOCITY, MAX_VELOCITY])
    (by norm_num [vxUpdate, DRAG, MIN_VELOCITY, MAX_VELOCITY])
    ⟨0, 0, 100, 0⟩ 1 50 100 (by norm_num)
    (by norm_num [vxUpdate, DRAG, MIN_VELOCITY, MAX_VELOCITY])
    (by norm_num [vxUpdate, DRAG, MIN_VELOCITY, MAX_VELOCITY])

/-- C6 counterexample: starting at rest above the floor (position.y = 0,
floor at maxY = 10000), one physics step moves position.y from 0 up to 980,
so position.y increases toward the floor (the screen y axis points down);
the claim that position monotonically decreases in y fails on the code. -/
theorem claim6_counterexample_py_increases :
    (physicsStep { px := 0, py := 0, vx := 0, vy := 0 } 1 100 10000).py = 980
    ∧ (0 : ℚ) < 980 := by
  norm_num [physicsStep, vxUpdate, vyUpdate, GRAVITY, DRAG, MIN_VELOCITY, MAX_VELOCITY]

/-- C6 amended: starting from rest above the floor with no dragging, the
per-step y velocity sequence is monotonically non-decreasing (it stays
within the MAX_VELOCITY clamp), position.y is monotonically non-decreasing
(the screen y axis points down, so the character falls toward the floor at
maxY rather than toward y = 0), and a step whose position update crosses the
floor clamps position.y to maxY and zeroes velocity.y. -/
theorem claim6_amended_fall_monotone (delta : ℚ) (hd : 0 < delta) (n : ℕ)
    (s : PhysState) (maxX maxY : ℚ)
    (hvy : 0 ≤ s.vy) (hpy0 : 0 ≤ s.py) (hpyf : s.py ≤ maxY)
    (t : PhysState) (maxX2 maxY2 : ℚ) (hmy2 : 0 ≤ maxY2) (hpy2 : 0 ≤ t.py)
    (hcontact : t.py + vyUpdate delta t.vy * delta > maxY2) :
    vySeq delta n ≤ vySeq delta (n + 1)
    ∧ s.py ≤ (physicsStep s delta maxX maxY).py
    ∧ (physicsStep t delta maxX2 maxY2).py = maxY2
    ∧ (physicsStep t delta maxX2 maxY2).vy = 0 := by
  refine ⟨(vySeq_invariant delta hd n).2.2.2.2, ?_, ?_, ?_⟩
  · have hv1 : 0 ≤ vyUpdate delta s.vy := vyUpdate_nonneg delta s.vy hd hvy
    have hpy1 : s.py ≤ s.py + vyUpdate delta s.vy * delta := by nlinarith
    rw [physicsStep]
    simp only
    split
    · linarith
    · split
      · linarith
      · linarith
  · have hnotlt : ¬(t.py + vyUpdate delta t.vy * delta < 0) := by linarith
    rw [physicsStep]
    simp [hnotlt, hcontact]
  · have hnotlt : ¬(t.py + vyUpdate delta t.vy * delta < 0) := by linarith
    rw [physicsStep]
    simp [hnotlt, hcontact]

/-- C6 witness: the amended theorem at delta = 1, step 3 of the velocity
sequence, a state resting at y = 10 above a floor at 500, and a state at
y = 400 whose next step crosses that floor. -/
theorem claim6_witness :
    vySeq 1 3 ≤ vySeq 1 4
    ∧ (10 : ℚ) ≤ (physicsStep ⟨0, 10, 0, 0⟩ 1 100 500).py
    ∧ (physicsStep ⟨0, 400, 0, 0⟩ 1 100 500).py = 500
    ∧ (physicsStep ⟨0, 400, 0, 0⟩ 1 100 500).vy = 0 :=
  claim6_amended_fall_monotone 1 (by norm_num) 3 ⟨0, 10, 0, 0⟩ 100 500 le_rfl
    (by norm_num) (by norm_num) ⟨0, 400, 0, 0⟩ 100 500 (by norm_num) (by norm_num)
    (by norm_num [vyUpdate, GRAVITY, DRAG, MIN_VELOCITY, MAX_VELOCITY])

/-- C7: a skeleton lacking "Sit" or lacking "Sleep" resolves the vehicle
flag to true, and with the vehicle flag true every action the next-action
sampler successfully returns has an animation name drawn from the vehicle
name lists, which contain neither "Sit" nor "Sleep". -/
theorem claim7_vehicle_never_sits_or_sleeps (prev hasSit hasSleep special : Bool)
    (hlack : hasSit = false ∨ hasSleep = false)
    (current : Action) (draw flipDraw : ℚ) (a : Action)
    (hok : nextAction (getAnimationNames (resolveIsVehicle prev hasSit hasSleep) special)
      (getAnimationMarkov (resolveIsVehicle prev hasSit hasSleep) special)
      current draw flipDraw = Except.ok a) :
    resolveIsVehicle prev hasSit hasSleep = true
    ∧ a.animation ≠ "Sit" ∧ a.animation ≠ "Sleep" := by
  have hveh : resolveIsVehicle prev hasSit hasSleep = true := by
    rcases hlack with h | h <;> subst h <;> simp [resolveIsVehicle]
  rw [hveh] at hok
  obtain ⟨row, j, hrow, hpick, hname⟩ :=
    nextAction_ok_decomp _ _ _ _ _ _ hok
  have hmem : a.animation ∈ getAnimationNames true special := jsElem?_mem _ _ _ hname
  have hall : ∀ x ∈ getAnimationNames true special, x ≠ "Sit" ∧ x ≠ "Sleep" := by
    cases special <;> decide
  exact ⟨hveh, (hall _ hmem).1, (hall _ hmem).2⟩

/-- C7 witness: a character lacking "Sit" resolves to vehicle, and a
concrete successful sampling step from "Relax" (draw 0.3) returns "Relax",
which is neither "Sit" nor "Sleep". -/
theorem claim7_witness :
    resolveIsVehicle false false true = true
    ∧ (Action.mk "Relax" Direction.right 0).animation ≠ "Sit"
    ∧ (Action.mk "Relax" Direction.right 0).animation ≠ "Sleep" :=
  claim7_vehicle_never_sits_or_sleeps false false true true (Or.inl rfl)
    (Action.mk "Relax" Direction.right 0) 0.3 0.5
    (Action.mk "Relax" Direction.right 0)
    (by norm_num [nextAction, jsIndexOf, jsElem?, randomPick, randomPickAux,
      resolveIsVehicle, getAnimationNames, getAnimationMarkov,
      ANIMATION_NAMES_VEHICLE, ANIMATION_MARKOV_VEHICLE, List.findIdx?_cons])

/-- C8: each of the four transition tables has exactly as many rows as its
name list has entries, and every row sums to 1 within 1e-6 and has exactly
as many columns as the name list has entries. -/
theorem claim8_tables_row_stochastic :
    (ANIMATION_MARKOV.length = ANIMATION_NAMES.length
      ∧ ∀ row ∈ ANIMATION_MARKOV,
          |row.sum - 1| ≤ 1 / 1000000 ∧ row.length = ANIMATION_NAMES.length)
    ∧ (ANIMATION_MARKOV_VEHICLE.length = ANIMATION_NAMES_VEHICLE.length
      ∧ ∀ row ∈ ANIMATION_MARKOV_VEHICLE,
          |row.sum - 1| ≤ 1 / 1000000 ∧ row.length = ANIMATION_NAMES_VEHICLE.length)
    ∧ (ANIMATION_MARKOV_NO_SPECIAL.length = ANIMATION_NAMES_NO_SPECIAL.length
      ∧ ∀ row ∈ ANIMATION_MARKOV_NO_SPECIAL,
          |row.sum - 1| ≤ 1 / 1000000 ∧ row.length = ANIMATION_NAMES_NO_SPECIAL.length)
    ∧ (ANIMATION_MARKOV_VEHICLE_NO_SPECIAL.length
        = ANIMATION_NAMES_VEHICLE_NO_SPECIAL.length
      ∧ ∀ row ∈ ANIMATION_MARKOV_VEHICLE_NO_SPECIAL,
          |row.sum - 1| ≤ 1 / 1000000
            ∧ row.length = ANIMATION_NAMES_VEHICLE_NO_SPECIAL.length) := by
  refine ⟨⟨rfl, ?_⟩, ⟨rfl, ?_⟩, ⟨rfl, ?_⟩, rfl, ?_⟩ <;>
    · intro row hrow
      fin_cases hrow <;>
        norm_num [abs_le, ANIMATION_NAMES, ANIMATION_NAMES_VEHICLE,
          ANIMATION_NAMES_NO_SPECIAL, ANIMATION_NAMES_VEHICLE_NO_SPECIAL]

/-- C9: when the mapped pixel coordinate is inside the render target, the
is-over flag is true exactly when the sampled alpha is nonzero; when the
mapped coordinate is out of range, the flag is false. -/
theorem claim9_hit_test_alpha (pixelX pixelY width height : ℚ) (alpha : ℕ)
    (hin : 0 ≤ pixelX ∧ pixelX < width ∧ 0 ≤ pixelY ∧ pixelY < height)
    (pX2 pY2 w2 h2 : ℚ) (alpha2 : ℕ)
    (hout : ¬(0 ≤ pX2 ∧ pX2 < w2 ∧ 0 ≤ pY2 ∧ pY2 < h2)) :
    (hitTest pixelX pixelY width height alpha = true ↔ alpha ≠ 0)
    ∧ hitTest pX2 pY2 w2 h2 alpha2 = false := by
  constructor
  · rw [hitTest, if_pos hin]
    simp
  · rw [hitTest, if_neg hout]

/-- C9 witness: the theorem at an in-range coordinate with alpha 255 and at
an out-of-range coordinate. -/
theorem claim9_witness :
    (hitTest 3 4 10 10 255 = true ↔ (255 : ℕ) ≠ 0)
    ∧ hitTest 20 4 10 10 255 = false :=
  claim9_hit_test_alpha 3 4 10 10 255 (by norm_num) 20 4 10 10 255 (by norm_num)

/-- C10: in all four transition tables the "Interact" column (index 1) is 0
in every row, the next-action sampler never successfully returns an action
whose animation is "Interact" (a zero-probability column at index 1 can
never be selected because its cumulative sum equals that of index 0), and
the click handler is the operation that sets the current action to
"Interact". -/
theorem claim10_interact_never_sampled (isVehicle special : Bool) (current : Action)
    (draw flipDraw : ℚ) (a : Action)
    (hok : nextAction (getAnimationNames isVehicle special)
      (getAnimationMarkov isVehicle special) current draw flipDraw = Except.ok a) :
    (∀ table ∈ [ANIMATION_MARKOV, ANIMATION_MARKOV_VEHICLE, ANIMATION_MARKOV_NO_SPECIAL,
        ANIMATION_MARKOV_VEHICLE_NO_SPECIAL], ∀ row ∈ table, row[1]? = some 0)
    ∧ a.animation ≠ "Interact"
    ∧ handleCanvasClick current =
        { animation := "Interact", direction := current.direction, timestamp := 0 } := by
  have htables : ∀ table ∈ [ANIMATION_MARKOV, ANIMATION_MARKOV_VEHICLE,
      ANIMATION_MARKOV_NO_SPECIAL, ANIMATION_MARKOV_VEHICLE_NO_SPECIAL],
      ∀ row ∈ table, row[1]? = some 0 := by
    intro table ht
    fin_cases ht <;>
      · intro row hr
        fin_cases hr <;> norm_num
  refine ⟨htables, ?_, rfl⟩
  obtain ⟨row, j, hrow, hpick, hname⟩ := nextAction_ok_decomp _ _ _ _ _ _ hok
  have hrowmem : row ∈ getAnimationMarkov isVehicle special := jsElem?_mem _ _ _ hrow
  have hrow1 : row[1]? = some 0 := by
    clear hok hrow hpick hname
    cases isVehicle <;> cases special <;>
      · simp only [getAnimationMarkov, ANIMATION_MARKOV, ANIMATION_MARKOV_VEHICLE,
          ANIMATION_MARKOV_NO_SPECIAL, ANIMATION_MARKOV_VEHICLE_NO_SPECIAL,
          Bool.false_eq_true, if_true, if_false] at hrowmem
        fin_cases hrowmem <;> norm_num
  match row, hrow1 with
  | p0 :: p1 :: rest, hrow1 =>
    have hp1 : p1 = (0 : ℚ) := by simpa using hrow1
    subst hp1
    have hj : j ≠ 1 := fun hj1 => randomPick_ne_one p0 rest draw (hj1 ▸ hpick)
    intro hcontra
    rw [hcontra] at hname
    have hjs : (getAnimationNames isVehicle special)[j]? = some "Interact" := by
      rw [jsElem?, if_pos (Int.zero_le_ofNat j)] at hname
      exact hname
    cases isVehicle <;> cases special <;>
      · simp only [getAnimationNames, Bool.false_eq_true, if_true, if_false] at hjs
        first
          | exact hj (interact_at_one j hjs)
          | exact hj (interact_at_one_vehicle j hjs)
          | exact hj (interact_at_one_no_special j hjs)
          | exact hj (interact_at_one_vehicle_no_special j hjs)

/-- C10 witness: the theorem at a concrete successful sampling step (vehicle
repertoire, draw 0.3 from "Relax" yields "Relax", not "Interact") together
with the click handler forcing "Interact". -/
theorem claim10_witness :
    (∀ table ∈ [ANIMATION_MARKOV, ANIMATION_MARKOV_VEHICLE, ANIMATION_MARKOV_NO_SPECIAL,
        ANIMATION_MARKOV_VEHICLE_NO_SPECIAL], ∀ row ∈ table, row[1]? = some 0)
    ∧ (Action.mk "Relax" Direction.right 0).animation ≠ "Interact"
    ∧ handleCanvasClick (Action.mk "Relax" Direction.right 0) =
        { animation := "Interact", direction := Direction.right, timestamp := 0 } :=
  claim10_interact_never_sampled true true (Action.mk "Relax" Direction.right 0) 0.3 0.5
    (Action.mk "Relax" Direction.right 0)
    (by norm_num [nextAction, jsIndexOf, jsElem?, randomPick, randomPickAux,
      getAnimationNames, getAnimationMarkov, ANIMATION_NAMES_VEHICLE,
      ANIMATION_MARKOV_VEHICLE, List.findIdx?_cons])

end ArkPets
